import Mathlib

/-!
Verification of the BiteBot session-state reconciliation layer.

Shallow embedding of the two source files:
- `src/agent.py`: history-window trimming, inbound/outbound message
  serialization, reply extraction, reservation-sentinel extraction,
  and the tool-context snapshot (function `run_agent`).
- `app.py`: the `/chat` request handler (empty-message rejection,
  reservation dedup-and-append, sentinel scrubbing, session update),
  `/reset` and `/reservations`.

Machine strings are modelled as Lean `String`, JSON values as an explicit
inductive, and exceptions that escape to the request boundary as `Except`.
-/

set_option linter.unusedVariables false

namespace BiteBot

/-- The opening-brace character, written via its code point. -/
def lbrace : Char := Char.ofNat 123

/-- The closing-brace character, written via its code point. -/
def rbrace : Char := Char.ofNat 125

/-- JSON values as produced by parsing a reservation payload.
Arrays and objects are encoded as right-nested spines (`arrCons`/`objCons`)
so that all recursion over the type is plain structural recursion.
Numbers are modelled as integers; the payloads this system handles carry
only strings and integers. -/
inductive Json where
  | null
  | bool (b : Bool)
  | num (n : Int)
  | str (s : String)
  | arrNil
  | arrCons (hd tl : Json)
  | objNil
  | objCons (key : String) (val tl : Json)
  deriving DecidableEq, Repr

/-- Dictionary lookup `d[key]` on a JSON value: `none` models the Python
exception (`KeyError` on a dict without the key, `TypeError` on a
non-dict). With duplicate keys the later entry wins, matching the dict
`json.loads` builds. -/
def Json.getKey : Json → String → Option Json
  | .objCons k v tl, key =>
    match tl.getKey key with
    | some r => some r
    | none => if k = key then some v else none
  | _, _ => none

/-- The list comprehension `[r['reservation_id'] for r in reservations]`
from the chat handler: `none` models the comprehension raising because some
entry lacks the key (or is not a dict). -/
def existingIdsOf : List Json → Option (List Json)
  | [] => some []
  | r :: rs =>
    match r.getKey "reservation_id" with
    | none => none
    | some i =>
      match existingIdsOf rs with
      | none => none
      | some is => some (i :: is)

/-- JSON whitespace characters (the set `json.loads` skips). -/
def jsonWs (c : Char) : Bool :=
  c = ' ' || c = '\t' || c = '\n' || c = '\r'

/-- Skip JSON whitespace. -/
def skipWs (cs : List Char) : List Char :=
  cs.dropWhile jsonWs

/-- Body of a JSON string literal after the opening quote: returns the
decoded characters and the remainder after the closing quote. Handles the
single-character escapes; unescaped control characters are rejected as in
strict-mode `json.loads`. (The `\uXXXX` escape is outside this model.) -/
def parseStringBody : List Char → Option (List Char × List Char)
  | [] => none
  | c :: rest =>
    if c = '"' then some ([], rest)
    else if c = '\\' then
      match rest with
      | [] => none
      | e :: rest2 =>
        let dec : Option Char :=
          if e = '"' then some '"'
          else if e = '\\' then some '\\'
          else if e = '/' then some '/'
          else if e = 'n' then some '\n'
          else if e = 't' then some '\t'
          else if e = 'r' then some '\r'
          else if e = 'b' then some (Char.ofNat 8)
          else if e = 'f' then some (Char.ofNat 12)
          else none
        match dec with
        | none => none
        | some d =>
          match parseStringBody rest2 with
          | some (s, rem) => some (d :: s, rem)
          | none => none
    else if c.toNat < 32 then none
    else
      match parseStringBody rest with
      | some (s, rem) => some (c :: s, rem)
      | none => none

/-- A nonempty run of decimal digits, as a natural number. -/
def parseDigits (cs : List Char) : Option (Nat × List Char) :=
  let ds := cs.takeWhile Char.isDigit
  if ds.isEmpty then none
  else some (ds.foldl (fun a c => a * 10 + (c.toNat - 48)) 0, cs.drop ds.length)

/-- Parsing mode of the recursive-descent JSON parser: a single value, the
items of an array after `[`, or the fields of an object after the opening
brace. -/
inductive PMode where
  | value
  | items
  | fields

/-- Fueled recursive-descent JSON parser. In `items` mode the result is the
array spine, in `fields` mode the object spine. Fuel only bounds nesting
depth; every recursive call decreases it, so the definition is structural
and evaluates inside the kernel. -/
def parseCore : Nat → PMode → List Char → Option (Json × List Char)
  | 0, _, _ => none
  | fuel + 1, .value, cs =>
    match skipWs cs with
    | [] => none
    | c :: rest =>
      if c = 'n' then
        if "ull".data.isPrefixOf rest then some (.null, rest.drop 3) else none
      else if c = 't' then
        if "rue".data.isPrefixOf rest then some (.bool true, rest.drop 3) else none
      else if c = 'f' then
        if "alse".data.isPrefixOf rest then some (.bool false, rest.drop 4) else none
      else if c = '"' then
        match parseStringBody rest with
        | some (s, rem) => some (.str (String.mk s), rem)
        | none => none
      else if c = '-' then
        match parseDigits rest with
        | some (n, rem) => some (.num (-(n : Int)), rem)
        | none => none
      else if c.isDigit then
        match parseDigits (c :: rest) with
        | some (n, rem) => some (.num (n : Int), rem)
        | none => none
      else if c = '[' then
        match skipWs rest with
        | d :: rem => if d = ']' then some (.arrNil, rem) else parseCore fuel .items rest
        | [] => none
      else if c = lbrace then
        match skipWs rest with
        | d :: rem => if d = rbrace then some (.objNil, rem) else parseCore fuel .fields (skipWs rest)
        | [] => none
      else none
  | fuel + 1, .items, cs =>
    match parseCore fuel .value cs with
    | none => none
    | some (v, rem) =>
      match skipWs rem with
      | d :: rem2 =>
        if d = ',' then
          match parseCore fuel .items rem2 with
          | some (vs, rem3) => some (.arrCons v vs, rem3)
          | none => none
        else if d = ']' then some (.arrCons v .arrNil, rem2)
        else none
      | [] => none
  | fuel + 1, .fields, cs =>
    match cs with
    | c :: rest =>
      if c = '"' then
        match parseStringBody rest with
        | some (key, r1) =>
          match skipWs r1 with
          | d :: r2 =>
            if d = ':' then
              match parseCore fuel .value r2 with
              | some (v, r3) =>
                match skipWs r3 with
                | e :: r4 =>
                  if e = ',' then
                    match parseCore fuel .fields (skipWs r4) with
                    | some (fs, r5) => some (.objCons (String.mk key) v fs, r5)
                    | none => none
                  else if e = rbrace then some (.objCons (String.mk key) v .objNil, r4)
                  else none
                | [] => none
              | none => none
            else none
          | [] => none
        | none => none
      else none
    | [] => none

/-- Modelled from the spec: `json.loads` applied to the reservation payload
(standard-library code, not part of this repository). Parsing yields a JSON
value, or a decode error that the chat handler's
`except json.JSONDecodeError` clause swallows. The model covers null,
booleans, integers, strings with single-character escapes, arrays and
objects; fractional numbers and `\uXXXX` escapes are outside it. -/
def json_loads (s : String) : Except Unit Json :=
  match parseCore (2 * s.data.length + 4) .value s.data with
  | some (j, rem) => if (skipWs rem).isEmpty then .ok j else .error ()
  | _ => .error ()

/-- A plain message record as persisted in the Flask session:
`{'role': ..., 'content': ...}` with the optional keys a tool message
carries. -/
structure Message where
  role : String
  content : String
  name : Option String := none
  tool_call_id : Option String := none
  deriving DecidableEq, Repr

/-- A LangChain message object, as far as this layer inspects it: its class
name and the fields the code reads. -/
inductive LCMessage where
  | human (content : String)
  | ai (content : String)
  | tool (content : String) (name : String) (tool_call_id : String)
  deriving DecidableEq, Repr

/-- The sliding-window bound `MAX_HISTORY_MESSAGES` from `run_agent`. -/
def MAX_HISTORY_MESSAGES : Nat := 12

/-- History trimming from `run_agent`: `history[-12:]` when the history is
longer than the bound, the history unchanged otherwise. -/
def trimHistory (history : List Message) : List Message :=
  if history.length > MAX_HISTORY_MESSAGES then
    history.drop (history.length - MAX_HISTORY_MESSAGES)
  else history

/-- Whether a role is one of the three the inbound loop recognizes. -/
def recognizedRole (m : Message) : Bool :=
  m.role = "user" || m.role = "assistant" || m.role = "tool"

/-- The inbound serialization loop of `run_agent`: each plain record is
mapped to the corresponding LangChain message; a record whose role matches
no branch adds nothing to `lc_messages`. -/
def toLCMessages : List Message → List LCMessage
  | [] => []
  | m :: rest =>
    if m.role = "user" then .human m.content :: toLCMessages rest
    else if m.role = "assistant" then .ai m.content :: toLCMessages rest
    else if m.role = "tool" then
      .tool m.content (m.name.getD "") (m.tool_call_id.getD "") :: toLCMessages rest
    else toLCMessages rest

/-- The function `_serialize_message` of `src/agent.py`, restricted to the
three message classes `run_agent` can receive back; the catch-all branch
for other classes would produce `{'role': 'unknown', ...}`. -/
def serialize_message : LCMessage → Message
  | .human c => { role := "user", content := c }
  | .ai c => { role := "assistant", content := c }
  | .tool c n id => { role := "tool", content := c, name := some n, tool_call_id := some id }

/-- The content of an AI message when it is non-empty (a truthy
`msg.content`), `none` otherwise. -/
def aiContent? : LCMessage → Option String
  | .ai c => if c = "" then none else some c
  | _ => none

/-- The reversed scan of `run_agent` that picks the final output: the first
assistant message with truthy content in the reversed sequence. -/
def extractOutputRev : List LCMessage → String
  | [] => ""
  | .ai c :: rest => if c = "" then extractOutputRev rest else c
  | _ :: rest => extractOutputRev rest

/-- Reply extraction of `run_agent`: scan `response_messages` in reverse for
the last `AIMessage` with truthy content; the output starts as the empty
string and stays empty when no such message exists. -/
def extractOutput (msgs : List LCMessage) : String :=
  extractOutputRev msgs.reverse

/-- The literal part of the sentinel patterns, up to and including the
opening brace: `IMPORTANT: This reservation data includes: ` followed by
the brace that opens the JSON blob. -/
def sentinelLit : List Char := "IMPORTANT: This reservation data includes: \x7b".data

/-- Greedy tail of the extraction regex `(\x7b.*\x7d)`: given the characters
after the opening brace, take the current line up to its last closing
brace (`.` does not cross a newline; `.*` is greedy). `none` when the line
has no closing brace, in which case the regex does not match here. -/
def greedyBody (rest : List Char) : Option (List Char) :=
  let line := rest.takeWhile (fun c => c ≠ '\n')
  match line.reverse.dropWhile (fun c => c ≠ rbrace) with
  | [] => none
  | l => some l.reverse

/-- Scan for the leftmost match of the extraction regex
`IMPORTANT: This reservation data includes: (\x7b.*\x7d)`; returns the
characters of capture group 1. -/
def findSentinelAux : List Char → Option (List Char)
  | [] => none
  | c :: cs =>
    if sentinelLit.isPrefixOf (c :: cs) then
      match greedyBody ((c :: cs).drop sentinelLit.length) with
      | some body => some (lbrace :: body)
      | none => findSentinelAux cs
    else findSentinelAux cs

/-- `re.search` of the extraction regex on one tool-message content: the
JSON blob of the first (leftmost) sentinel occurrence, `none` when the
content has none. -/
def findSentinel (content : String) : Option String :=
  (findSentinelAux content.data).map String.mk

/-- The sentinel payload a message contributes: only tool messages are
inspected. -/
def toolSentinel : LCMessage → Option String
  | .tool c _ _ => findSentinel c
  | _ => none

/-- The reservation-extraction loop of `run_agent`: iterate over all
returned messages, and each matching tool message overwrites
`reservation_json`; the value left at the end is returned. -/
def extractReservationJson (msgs : List LCMessage) : Option String :=
  msgs.foldl
    (fun acc m =>
      match toolSentinel m with
      | some p => some p
      | none => acc)
    none

/-- One attempt of the scrub regex
`\n*IMPORTANT: This reservation data includes: \x7b.*?\x7d\n*` at the current
position: leading newlines, the literal, the lazy body up to the first
closing brace on the line, then trailing newlines. Returns the remainder
after the match when the regex matches starting here. -/
def tryMatch (cs : List Char) : Option (List Char) :=
  let afterNl := cs.dropWhile (fun c => c = '\n')
  if sentinelLit.isPrefixOf afterNl then
    let rest := afterNl.drop sentinelLit.length
    let lazyBody := rest.takeWhile (fun c => c ≠ rbrace && c ≠ '\n')
    match rest.drop lazyBody.length with
    | d :: tail => if d = rbrace then some (tail.dropWhile (fun c => c = '\n')) else none
    | [] => none
  else none

/-- Fueled engine of `re.sub(pattern, '', s)`: a single left-to-right pass
that copies characters until a match starts, skips the match, and resumes
after it without re-scanning what was already emitted. Fuel equal to the
length of the input always suffices because every step consumes at least
one character. -/
def scrubAuxF : Nat → List Char → List Char
  | 0, cs => cs
  | _ + 1, [] => []
  | fuel + 1, c :: cs =>
    match tryMatch (c :: cs) with
    | some rest => scrubAuxF fuel rest
    | none => c :: scrubAuxF fuel cs

/-- The output scrub of the chat handler:
`re.sub(r'\n*IMPORTANT: This reservation data includes: \x7b.*?\x7d\n*', '', s)`. -/
def scrub (s : String) : String :=
  String.mk (scrubAuxF s.data.length s.data)

/-- Whether the scrub regex matches anywhere in the text (the condition
under which `re.sub` changes it). -/
def hasMatch : List Char → Bool
  | [] => false
  | c :: cs => (tryMatch (c :: cs)).isSome || hasMatch cs

/-- Modelled from the spec: the Tool Context Store getter of `src/tools.py`
(a file this repository does not ship): `get(key) -> value|null` on the
shared key/value state. -/
def get_tool_context (store : List (String × Json)) (key : String) : Json :=
  match store.lookup key with
  | some v => v
  | none => Json.null

/-- Modelled from the spec: the Tool Context Store setter of
`src/tools.py`: `set(key, value)` overwrites the slot. -/
def set_tool_context (store : List (String × Json)) (key : String) (value : Json) :
    List (String × Json) :=
  (key, value) :: store.eraseP (fun kv => kv.1 = key)

/-- The restore loop at the top of `run_agent`: each non-null slot of the
session-persisted tool context is written back into the store. -/
def restoreToolContext (store : List (String × Json)) (ctx : List (String × Json)) :
    List (String × Json) :=
  ctx.foldl (fun s kv => if kv.2 ≠ Json.null then set_tool_context s kv.1 kv.2 else s) store

/-- The dictionary `run_agent` returns. -/
structure AgentResult where
  output : String
  new_messages : List Message
  tool_context : List (String × Json)
  reservation_json : Option String
  deriving Repr

/-- The function `run_agent` of `src/agent.py`. The external agent call is
a parameter: `responseMessages` is the sequence `agent.invoke` returns, and
`storeAfter` is the global tool-context store as the tools left it. The
window actually sent to the agent is `toLCMessages (trimHistory history)`;
the response is expected to echo it before appending new messages. -/
def run_agent (user_message : String) (history : List Message)
    (toolCtx : List (String × Json)) (responseMessages : List LCMessage)
    (storeAfter : List (String × Json)) : AgentResult :=
  let lc_messages := toLCMessages (trimHistory history)
  let new_lc_messages := responseMessages.drop lc_messages.length
  { output := extractOutput responseMessages
    new_messages := new_lc_messages.map serialize_message
    tool_context := [("availability", get_tool_context storeAfter "availability")]
    reservation_json := extractReservationJson responseMessages }

/-- The per-session state the Flask session persists. -/
structure SessionState where
  messages : List Message
  reservations : List Json
  tool_context : List (String × Json)
  deriving Repr

/-- The dedup-and-append step of the chat handler applied to an already
parsed reservation: build `existing_ids` (raising if an entry lacks the
key), look up the new payload's id (raising likewise), and append only
when the id is new. `Except.error` models an exception that flies past the
`except json.JSONDecodeError` clause to the request boundary. -/
def storeParsedReservation (reservations : List Json) (reservation : Json) :
    Except Unit (List Json) :=
  match existingIdsOf reservations with
  | none => .error ()
  | some existing_ids =>
    match reservation.getKey "reservation_id" with
    | none => .error ()
    | some rid =>
      if rid ∈ existing_ids then .ok reservations
      else .ok (reservations ++ [reservation])

/-- The full reservation-storing block of the chat handler: nothing happens
when `reservation_json` is absent or falsy; a JSON decode error is
swallowed (`pass`); otherwise the parsed payload goes through the
dedup-and-append step. -/
def storeReservation (reservations : List Json) (reservation_json : Option String) :
    Except Unit (List Json) :=
  match reservation_json with
  | none => .ok reservations
  | some s =>
    if s = "" then .ok reservations
    else
      match json_loads s with
      | .error _ => .ok reservations
      | .ok reservation => storeParsedReservation reservations reservation

/-- Whitespace as stripped by `str.strip()` (the ASCII part: space, tab,
newline, carriage return, vertical tab, form feed). -/
def pyWs (c : Char) : Bool :=
  c = ' ' || c = '\t' || c = '\n' || c = '\r' || c = Char.ofNat 11 || c = Char.ofNat 12

/-- Python `s.strip()`: remove leading and trailing whitespace. -/
def pyStrip (s : String) : String :=
  String.mk (((s.data.dropWhile pyWs).reverse.dropWhile pyWs).reverse)

/-- The default the chat handler attaches to the absence of the `output`
key in the agent result. -/
def FALLBACK_MESSAGE : String := "Sorry, I encountered an error."

/-- Outcome of one POST to `/chat`: HTTP status, the `message` and
`reservations` fields of the JSON body when present, and the session state
as the next request will observe it. On an error response no session write
happens (no assignment ran, or the exception skipped `session.modified`,
so the cookie is not re-issued). -/
structure ChatOutcome where
  status : Nat
  message : Option String
  reservations : Option (List Json)
  sessionAfter : SessionState
  deriving Repr

/-- The `/chat` handler of `app.py`. `agentInit` is whether the module-level
agent was constructed; `reqMessage` is the `message` field of the request
body (`none` when missing); `responseMessages` and `storeAfter` stand for
the external agent call exactly as in `run_agent`. Since `run_agent`
always returns an `output` key, `response.get('output', fallback)` is its
`output` field. -/
def chat (agentInit : Bool) (st : SessionState) (reqMessage : Option String)
    (responseMessages : List LCMessage) (storeAfter : List (String × Json)) : ChatOutcome :=
  if agentInit = false then
    { status := 500, message := none, reservations := none, sessionAfter := st }
  else
    let user_message := pyStrip (reqMessage.getD "")
    if user_message = "" then
      { status := 400, message := none, reservations := none, sessionAfter := st }
    else
      let conversation_history := st.messages ++ [{ role := "user", content := user_message }]
      let response :=
        run_agent user_message conversation_history st.tool_context responseMessages storeAfter
      let assistant_message := response.output
      match storeReservation st.reservations response.reservation_json with
      | .error _ =>
        { status := 500, message := none, reservations := none, sessionAfter := st }
      | .ok reservations =>
        let clean_message := scrub assistant_message
        let final_history :=
          conversation_history ++ [{ role := "assistant", content := clean_message }]
        { status := 200
          message := some clean_message
          reservations := some reservations
          sessionAfter :=
            { messages := final_history
              reservations := reservations
              tool_context := response.tool_context } }

/-- The `/reset` handler of `app.py`: set the three session keys to empty
and answer `{'status': 'ok'}`. -/
def reset (st : SessionState) : SessionState × String :=
  ({ messages := [], reservations := [], tool_context := [] }, "ok")

/-- The `/reservations` handler of `app.py`. -/
def get_reservations (st : SessionState) : List Json :=
  st.reservations

/-! ## Theorems -/

/-- C1: for every transcript with more than 12 messages, the window sent to
the agent invocation is a suffix of the transcript of length exactly 12
(hence the most recent 12 entries in their original relative order); for
every transcript with 12 or fewer messages, the window is the transcript
unchanged. -/
theorem C1_window_is_last_twelve (h : List Message) :
    (h.length > MAX_HISTORY_MESSAGES →
      (trimHistory h).length = MAX_HISTORY_MESSAGES ∧ trimHistory h <:+ h) ∧
    (h.length ≤ MAX_HISTORY_MESSAGES → trimHistory h = h) := by
  constructor
  · intro hgt
    unfold trimHistory
    rw [if_pos hgt]
    refine ⟨?_, List.drop_suffix _ _⟩
    rw [List.length_drop]
    omega
  · intro hle
    unfold trimHistory
    rw [if_neg (by omega)]

/-- Witness for C1 at a 13-message transcript and at an 11-message one. -/
theorem C1_window_is_last_twelve_witness :
    (trimHistory (List.replicate 13 { role := "user", content := "x" })).length = 12 ∧
    trimHistory (List.replicate 13 { role := "user", content := "x" })
      <:+ List.replicate 13 { role := "user", content := "x" } ∧
    trimHistory (List.replicate 11 { role := "user", content := "x" })
      = List.replicate 11 { role := "user", content := "x" } := by
  refine ⟨?_, ?_, ?_⟩
  · exact ((C1_window_is_last_twelve _).1 (by decide)).1
  · exact ((C1_window_is_last_twelve _).1 (by decide)).2
  · exact (C1_window_is_last_twelve _).2 (by decide)

/-- C8: whatever keys the tools wrote into the shared store during the
turn, the tool-context snapshot `run_agent` returns for session
persistence has key list exactly `[availability]`. -/
theorem C8_snapshot_keys_availability (user_message : String) (history : List Message)
    (toolCtx : List (String × Json)) (responseMessages : List LCMessage)
    (storeAfter : List (String × Json)) :
    ((run_agent user_message history toolCtx responseMessages storeAfter).tool_context).map
        Prod.fst = ["availability"] := rfl

/-- C9: reset unconditionally empties all three session fields: afterwards
the transcript is fresh, the reservations endpoint reports an empty list,
the tool context is empty, and the handler answers ok. -/
theorem C9_reset_clears_everything (st : SessionState) :
    (reset st).1.messages = [] ∧ get_reservations (reset st).1 = [] ∧
    (reset st).1.tool_context = [] ∧ (reset st).2 = "ok" :=
  ⟨rfl, rfl, rfl, rfl⟩

/-- C5: when the agent is initialized, a chat request whose message is
empty or missing after trimming whitespace gets a 400 response and leaves
the prior session state (transcript, reservations, tool context) exactly
as it was. -/
theorem C5_empty_message_400 (st : SessionState) (reqMessage : Option String)
    (responseMessages : List LCMessage) (storeAfter : List (String × Json))
    (hmsg : pyStrip (reqMessage.getD "") = "") :
    chat true st reqMessage responseMessages storeAfter =
      { status := 400, message := none, reservations := none, sessionAfter := st } := by
  unfold chat
  simp [hmsg]

/-- Witness for C5: a whitespace-only message and a missing message field,
against a nonempty prior session. -/
theorem C5_empty_message_400_witness :
    chat true
        { messages := [{ role := "user", content := "hi" }],
          reservations := [Json.objCons "reservation_id" (Json.str "r1") Json.objNil],
          tool_context := [("availability", Json.str "table for 2")] }
        (some "   ") [] [] =
      { status := 400, message := none, reservations := none,
        sessionAfter :=
          { messages := [{ role := "user", content := "hi" }],
            reservations := [Json.objCons "reservation_id" (Json.str "r1") Json.objNil],
            tool_context := [("availability", Json.str "table for 2")] } } ∧
    chat true
        { messages := [], reservations := [], tool_context := [] } none [] [] =
      { status := 400, message := none, reservations := none,
        sessionAfter := { messages := [], reservations := [], tool_context := [] } } :=
  ⟨C5_empty_message_400 _ _ _ _ (by decide), C5_empty_message_400 _ _ _ _ (by decide)⟩

/-- C6: the dedup-and-append step of the chat handler is idempotent under
re-delivery: when the payload's reservation id already occurs among the
ids of the session's reservations the list is returned unchanged, and when
it does not the payload is appended exactly once at the end. -/
theorem C6_reservation_dedup (reservations : List Json) (payload : Json)
    (ids : List Json) (rid : Json)
    (hids : existingIdsOf reservations = some ids)
    (hrid : payload.getKey "reservation_id" = some rid) :
    (rid ∈ ids → storeParsedReservation reservations payload = .ok reservations) ∧
    (rid ∉ ids → storeParsedReservation reservations payload = .ok (reservations ++ [payload])) := by
  unfold storeParsedReservation
  simp only [hids, hrid]
  constructor
  · intro hmem
    rw [if_pos hmem]
  · intro hmem
    rw [if_neg hmem]

/-- Witness for C6: re-delivering a payload with the already-stored id r1
leaves the list unchanged, and a payload with the fresh id r2 is appended
at the end. -/
theorem C6_reservation_dedup_witness :
    storeParsedReservation
        [Json.objCons "reservation_id" (Json.str "r1") Json.objNil]
        (Json.objCons "reservation_id" (Json.str "r1")
          (Json.objCons "party_size" (Json.num 2) Json.objNil)) =
      .ok [Json.objCons "reservation_id" (Json.str "r1") Json.objNil] ∧
    storeParsedReservation
        [Json.objCons "reservation_id" (Json.str "r1") Json.objNil]
        (Json.objCons "reservation_id" (Json.str "r2") Json.objNil) =
      .ok [Json.objCons "reservation_id" (Json.str "r1") Json.objNil,
           Json.objCons "reservation_id" (Json.str "r2") Json.objNil] :=
  ⟨(C6_reservation_dedup
      [Json.objCons "reservation_id" (Json.str "r1") Json.objNil]
      (Json.objCons "reservation_id" (Json.str "r1")
        (Json.objCons "party_size" (Json.num 2) Json.objNil))
      [Json.str "r1"] (Json.str "r1") rfl rfl).1 (by decide),
   (C6_reservation_dedup
      [Json.objCons "reservation_id" (Json.str "r1") Json.objNil]
      (Json.objCons "reservation_id" (Json.str "r2") Json.objNil)
      [Json.str "r1"] (Json.str "r2") rfl rfl).2 (by decide)⟩

/-- The last element of a cons, as an Option.or of the tail's last
element and the head. -/
theorem getLast?_cons_or {α : Type} (p : α) (L : List α) :
    (p :: L).getLast? = Option.or L.getLast? (some p) := by
  cases L with
  | nil => rfl
  | cons b l =>
    rw [List.getLast?_cons_cons]
    obtain ⟨x, hx⟩ : ∃ x, (b :: l).getLast? = some x := by
      cases h : (b :: l).getLast? with
      | some x => exact ⟨x, rfl⟩
      | none => exact absurd (List.getLast?_eq_none_iff.mp h) (by simp)
    rw [hx]
    rfl

/-- The overwrite-fold of the reservation-extraction loop computes the last
sentinel payload, falling back to the accumulator. -/
theorem extractReservationJson_foldl (msgs : List LCMessage) (acc : Option String) :
    msgs.foldl
        (fun acc m =>
          match toolSentinel m with
          | some p => some p
          | none => acc)
        acc = Option.or ((msgs.filterMap toolSentinel).getLast?) acc := by
  induction msgs generalizing acc with
  | nil => rfl
  | cons m ms ih =>
    rw [List.foldl_cons, ih, List.filterMap_cons]
    cases toolSentinel m with
    | none => rfl
    | some p =>
      dsimp only
      rw [getLast?_cons_or]
      cases (ms.filterMap toolSentinel).getLast? <;> rfl

/-- C2 counterexample: with two matching tool messages carrying distinct
payloads, the extraction loop returns the payload of the second (last)
matching message, not the first, refuting first-match-wins. -/
theorem C2_counterexample :
    extractReservationJson
        [LCMessage.tool
          "IMPORTANT: This reservation data includes: \x7b\"reservation_id\": \"r1\"\x7d"
          "make_reservation_tool" "call1",
         LCMessage.tool
          "IMPORTANT: This reservation data includes: \x7b\"reservation_id\": \"r2\"\x7d"
          "make_reservation_tool" "call2"] =
      some "\x7b\"reservation_id\": \"r2\"\x7d" ∧
    ("\x7b\"reservation_id\": \"r2\"\x7d" : String) ≠ "\x7b\"reservation_id\": \"r1\"\x7d" := by
  exact ⟨rfl, by decide⟩

/-- C2 amended: at most one reservation is extracted per turn, and when
several tool-role messages contain the sentinel pattern the returned
payload is that of the last matching tool message in order (last match
wins), since each match overwrites the previous one. -/
theorem C2_last_match_wins (msgs : List LCMessage) :
    extractReservationJson msgs = (msgs.filterMap toolSentinel).getLast? := by
  unfold extractReservationJson
  rw [extractReservationJson_foldl]
  cases (msgs.filterMap toolSentinel).getLast? <;> rfl

/-- C3 counterexample: an inbound record with the unrecognized role
`system` does not make the serialization error; it is silently skipped,
and the remaining records are serialized as if it were not there. -/
theorem C3_counterexample :
    toLCMessages
        [{ role := "system", content := "rogue" }, { role := "user", content := "hi" }] =
      [LCMessage.human "hi"] := rfl

/-- C3 amended: the inbound serialization is total and silently drops every
record whose role is not user, assistant or tool: the produced window
equals the serialization of the recognized records only, with one entry
per recognized record. -/
theorem C3_unknown_roles_silently_dropped (msgs : List Message) :
    toLCMessages msgs = toLCMessages (msgs.filter recognizedRole) ∧
    (toLCMessages msgs).length = (msgs.filter recognizedRole).length := by
  induction msgs with
  | nil => exact ⟨rfl, rfl⟩
  | cons m ms ih =>
    have h2 : (toLCMessages (List.filter recognizedRole ms)).length =
        (List.filter recognizedRole ms).length := by
      rw [← ih.1]; exact ih.2
    by_cases hu : m.role = "user"
    · simp [toLCMessages, recognizedRole, hu, List.filter_cons, ih.1, h2]
    · by_cases ha : m.role = "assistant"
      · simp [toLCMessages, recognizedRole, hu, ha, List.filter_cons, ih.1, h2]
      · by_cases ht : m.role = "tool"
        · simp [toLCMessages, recognizedRole, hu, ha, ht, List.filter_cons, ih.1, h2]
        · simp [toLCMessages, recognizedRole, hu, ha, ht, List.filter_cons, ih.1, h2]

/-- When the scrub regex matches nowhere, the single left-to-right pass of
the substitution engine copies the text verbatim. -/
theorem scrubAuxF_no_match (cs : List Char) :
    ∀ n, cs.length ≤ n → hasMatch cs = false → scrubAuxF n cs = cs := by
  induction cs with
  | nil => intro n _ _; cases n <;> rfl
  | cons c cs ih =>
    intro n hlen hnm
    cases n with
    | zero => rfl
    | succ m =>
      rw [hasMatch, Bool.or_eq_false_iff] at hnm
      cases htm : tryMatch (c :: cs) with
      | some rest => rw [htm] at hnm; exact absurd hnm.1 (by simp)
      | none =>
        rw [scrubAuxF, htm]
        rw [ih m (by simpa using hlen) hnm.2]

/-- Scrubbing a string in which the scrub regex does not match returns it
unchanged. -/
theorem scrub_eq_self_of_no_match (s : String) (h : hasMatch s.data = false) :
    scrub s = s := by
  unfold scrub
  rw [scrubAuxF_no_match s.data s.data.length (le_refl _) h]

/-- C4 counterexample: removing a sentinel match can splice the surrounding
text into a fresh sentinel, which the single substitution pass does not
revisit, so scrubbing this input twice removes more than scrubbing it
once. -/
theorem C4_counterexample :
    scrub
        (String.append "IMPORTANT: This reserv"
          (String.append "IMPORTANT: This reservation data includes: \x7ba\x7d"
            "ation data includes: \x7bb\x7d")) ≠
      scrub (scrub
        (String.append "IMPORTANT: This reserv"
          (String.append "IMPORTANT: This reservation data includes: \x7ba\x7d"
            "ation data includes: \x7bb\x7d"))) := by decide

/-- C4 amended: scrubbing a string that contains no sentinel match returns
it unchanged, and scrubbing is idempotent on a string whenever its scrub
output contains no further sentinel match; but removal can create a new
match, so scrubbing twice does not equal scrubbing once on all strings. -/
theorem C4_scrub_identity_on_clean (s : String) :
    (hasMatch s.data = false → scrub s = s) ∧
    (hasMatch (scrub s).data = false → scrub (scrub s) = scrub s) :=
  ⟨scrub_eq_self_of_no_match s, scrub_eq_self_of_no_match (scrub s)⟩

/-- Witness for C4 on a sentinel-free reply. -/
theorem C4_scrub_identity_on_clean_witness :
    scrub "Your table is booked!" = "Your table is booked!" ∧
    scrub (scrub "Your table is booked!") = scrub "Your table is booked!" :=
  ⟨(C4_scrub_identity_on_clean "Your table is booked!").1 (by decide),
   (C4_scrub_identity_on_clean "Your table is booked!").2 (by decide)⟩

/-- The reversed output scan picks the first non-empty assistant content of
the scanned list, i.e. the head of the filtered contents. -/
theorem extractOutputRev_eq (l : List LCMessage) :
    extractOutputRev l = ((l.filterMap aiContent?).head?).getD "" := by
  induction l with
  | nil => rfl
  | cons m ms ih =>
    cases m with
    | human c => simpa [extractOutputRev, aiContent?, List.filterMap_cons] using ih
    | tool c n i => simpa [extractOutputRev, aiContent?, List.filterMap_cons] using ih
    | ai c =>
      by_cases hc : c = ""
      · simpa [extractOutputRev, aiContent?, hc, List.filterMap_cons] using ih
      · simp [extractOutputRev, aiContent?, hc, List.filterMap_cons]

/-- C7 counterexample: on a turn whose returned messages contain no
assistant message with non-empty content, the extraction yields the empty
string and the chat handler returns that empty string as the visible
message of a 200 response; the fallback text is attached to the absence of
the output key, which run_agent always supplies, so no fallback is
substituted. -/
theorem C7_counterexample :
    extractOutput [LCMessage.tool "Availability confirmed" "check_availability_tool" "c1"]
        = "" ∧
    (chat true { messages := [], reservations := [], tool_context := [] } (some "hi")
        [LCMessage.tool "Availability confirmed" "check_availability_tool" "c1"] []).status
        = 200 ∧
    (chat true { messages := [], reservations := [], tool_context := [] } (some "hi")
        [LCMessage.tool "Availability confirmed" "check_availability_tool" "c1"] []).message
        = some "" ∧
    FALLBACK_MESSAGE ≠ "" :=
  ⟨rfl, rfl, rfl, by decide⟩

/-- C7 amended: the extracted reply is the content of the last
assistant-role message with non-empty content, and the empty string when no
such message exists; the caller then uses that string as the reply without
substituting any fallback, because the output key is always present in the
agent result. -/
theorem C7_reply_is_last_nonempty_ai (msgs : List LCMessage) :
    extractOutput msgs = ((msgs.filterMap aiContent?).getLast?).getD "" := by
  unfold extractOutput
  rw [extractOutputRev_eq, List.filterMap_reverse, List.head?_reverse]

/-- Capture group 1 of the extraction regex always starts with the opening
brace. -/
theorem findSentinelAux_starts_lbrace (cs : List Char) :
    ∀ l, findSentinelAux cs = some l → ∃ t, l = lbrace :: t := by
  induction cs with
  | nil => intro l h; exact absurd h (by simp [findSentinelAux])
  | cons c cs ih =>
    intro l h
    rw [findSentinelAux] at h
    split at h
    · split at h
      · exact ⟨_, (Option.some.injEq _ _ ▸ h).symm⟩
      · exact ih l h
    · exact ih l h

/-- An extracted reservation payload is never the empty string: it carries
at least the braces of the JSON blob. -/
theorem extractReservationJson_ne_empty (msgs : List LCMessage) (s : String)
    (h : extractReservationJson msgs = some s) : s ≠ "" := by
  unfold extractReservationJson at h
  rw [extractReservationJson_foldl, Option.or_none] at h
  obtain ⟨m, _, hm⟩ := List.mem_filterMap.mp (List.mem_of_getLast?_eq_some h)
  cases m with
  | human c => exact absurd hm (by simp [toolSentinel])
  | ai c => exact absurd hm (by simp [toolSentinel])
  | tool c n i =>
    unfold toolSentinel findSentinel at hm
    obtain ⟨l, hl, hs⟩ := Option.map_eq_some'.mp hm
    obtain ⟨t, ht⟩ := findSentinelAux_starts_lbrace c.data l hl
    intro hempty
    rw [← hs, ht] at hempty
    have hd := congrArg String.data hempty
    simp at hd

/-- C10: when the extracted reservation payload parses as valid JSON but
has no reservation_id key to look up, the lookup error escapes the
JSON-decode handler and is caught only at the request boundary: the chat
request answers 500 with no message and no reservation list, and the
session as the next request sees it is untouched — neither the user
message, nor the assistant reply, nor the updated tool context is
persisted. -/
theorem C10_missing_id_500 (st : SessionState) (reqMessage : Option String)
    (responseMessages : List LCMessage) (storeAfter : List (String × Json))
    (s : String) (j : Json)
    (hne : pyStrip (reqMessage.getD "") ≠ "")
    (hext : extractReservationJson responseMessages = some s)
    (hparse : json_loads s = .ok j)
    (hkey : j.getKey "reservation_id" = none) :
    chat true st reqMessage responseMessages storeAfter =
      { status := 500, message := none, reservations := none, sessionAfter := st } := by
  have hs : s ≠ "" := extractReservationJson_ne_empty _ _ hext
  have hstore : storeReservation st.reservations
      (run_agent (pyStrip (reqMessage.getD ""))
        (st.messages ++ [{ role := "user", content := pyStrip (reqMessage.getD "") }])
        st.tool_context responseMessages storeAfter).reservation_json = .error () := by
    show storeReservation st.reservations (extractReservationJson responseMessages) = .error ()
    rw [hext]
    unfold storeReservation
    dsimp only
    rw [if_neg hs, hparse]
    dsimp only
    unfold storeParsedReservation
    cases hx : existingIdsOf st.reservations with
    | none => rfl
    | some ids =>
      dsimp only
      rw [hkey]
  unfold chat
  rw [if_neg (show ¬(true = false) by decide), if_neg hne]
  dsimp only
  rw [hstore]

/-- Witness for C10: a booking turn whose tool message smuggles the valid
JSON object with only the key x, which lacks reservation_id. -/
theorem C10_missing_id_500_witness :
    chat true { messages := [], reservations := [], tool_context := [] } (some "book it")
        [LCMessage.tool "Done. IMPORTANT: This reservation data includes: \x7b\"x\": 1\x7d"
          "make_reservation_tool" "c1"] [] =
      { status := 500, message := none, reservations := none,
        sessionAfter := { messages := [], reservations := [], tool_context := [] } } :=
  C10_missing_id_500 _ _ _ _ "\x7b\"x\": 1\x7d" (Json.objCons "x" (Json.num 1) Json.objNil)
    (by decide) rfl rfl rfl

end BiteBot
